import Mathlib

/-!
Verification of the WebSentry report pipeline: the rule engine
(`run_rule_based_checks` in `cli.py`), the summarizer
(`llm_enabled`, `rule_based_executive_summary`,
`generate_executive_summary` in `llm/summary.py`), and the report
assembly performed by `cli.py` `main` and `webapp.py` `_build_report`.

Python strings are modelled as Lean `String`, Python dicts as
insertion-ordered association lists, environment variables as an
explicit `Env` record, and the single external summarization call as
an abstract `LLMOutcome` (it either raises, or returns an optional
text).  The string operations used by the code (`str.lower`,
`str.strip`, string sorting, substring containment) are given
executable char-list implementations so that every predicate can be
evaluated on concrete inputs.
-/

namespace WebSentry

/-- Model of Python `str.lower` (ASCII case folding, which is all the
code compares against the literal `"true"`). -/
def pyLower (s : String) : String := ⟨s.data.map Char.toLower⟩

/-- Drop leading whitespace characters from a char list. -/
def dropWs : List Char → List Char
  | [] => []
  | c :: cs => if c.isWhitespace then dropWs cs else c :: cs

/-- Model of Python `str.strip`: remove leading and trailing whitespace. -/
def pyStrip (s : String) : String := ⟨(dropWs ((dropWs s.data).reverse)).reverse⟩

/-- Lexicographic comparison of char lists by code point, the order
Python `sorted` uses on strings. -/
def lexLe : List Char → List Char → Bool
  | [], _ => true
  | _ :: _, [] => false
  | a :: as, b :: bs => if a < b then true else if b < a then false else lexLe as bs

/-- Lexicographic order on strings, as used by Python `sorted`. -/
def strLe (a b : String) : Bool := lexLe a.data b.data

/-- Whether `p` is an initial segment of `s` (char lists). -/
def segStart : List Char → List Char → Bool
  | [], _ => true
  | _ :: _, [] => false
  | p :: ps, c :: cs => p == c && segStart ps cs

/-- Whether `pat` occurs as a contiguous segment of `s` (char lists). -/
def hasSeg (pat : List Char) : List Char → Bool
  | [] => pat.isEmpty
  | c :: s => segStart pat (c :: s) || hasSeg pat s

/-- Substring containment: Python `pat in s`. -/
def strContains (s pat : String) : Bool := hasSeg pat.data s.data

/-- Insert a string into a list, keeping lexicographic order. -/
def insertStr (x : String) : List String → List String
  | [] => [x]
  | y :: ys => if strLe x y then x :: y :: ys else y :: insertStr x ys

/-- Model of Python `sorted` on a list of strings (insertion sort; any
correct sort agrees with `sorted` on duplicate-free key lists). -/
def sortStrs : List String → List String
  | [] => []
  | x :: xs => insertStr x (sortStrs xs)

/-- Adjacent-pairs check that a list of strings is in ascending
lexicographic order. -/
def strChainLe : List String → Bool
  | [] => true
  | [_] => true
  | a :: b :: rest => strLe a b && strChainLe (b :: rest)

/-- Head compatibility used to reason about `insertStr`. -/
def headOk (y : String) : List String → Bool
  | [] => true
  | c :: _ => strLe y c

/-- A finding produced by the rule engine: the dicts built in
`run_rule_based_checks` all have exactly these four string fields. -/
structure Finding where
  title : String
  severity : String
  evidence : String
  mitigation : String
deriving DecidableEq, Repr

/-- Python `str(...)` applied to an `Optional[str]` (an f-string renders
`None` as the text `"None"`). -/
def pyStr (o : Option String) : String :=
  match o with
  | none => "None"
  | some s => s

/-- The ambient process environment read by `llm_enabled`,
`_llm_mode_string` and `_build_report`: `WEBSENTRY_LLM_ENABLED`,
`OPENAI_API_KEY` and `WEBSENTRY_VERSION` (each possibly unset). -/
structure Env where
  llmEnabledFlag : Option String
  openaiApiKey : Option String
  websentryVersion : Option String
deriving DecidableEq, Repr

/-- `llm_enabled` from `llm/summary.py`:
`os.getenv("WEBSENTRY_LLM_ENABLED", "false").lower() == "true" and
bool(os.getenv("OPENAI_API_KEY"))`. -/
def llm_enabled (e : Env) : Bool :=
  (pyLower (e.llmEnabledFlag.getD "false") == "true")
    && !((e.openaiApiKey.getD "") == "")

/-- Outcome of the single external summarization call attempted by
`generate_executive_summary`: the client call either returns a
response whose message content is an optional string, or raises. -/
inductive LLMOutcome where
  | ok (content : Option String)
  | err
deriving DecidableEq, Repr

/-- Python `key in headers` for a dict modelled as an association list. -/
def hasKey (headers : List (String × String)) (k : String) : Bool :=
  headers.any (fun p => p.1 == k)

/-- Python `headers.get(key)`. -/
def getHeader (headers : List (String × String)) (k : String) : Option String :=
  (headers.find? (fun p => p.1 == k)).map Prod.snd

/-- The finding appended when `"content-security-policy" not in headers`. -/
def cspFinding : Finding :=
  ⟨"Missing Content-Security-Policy header", "Medium",
   "No Content-Security-Policy header present in response",
   "Add a strict Content-Security-Policy header to reduce XSS risk"⟩

/-- The finding appended when `"x-frame-options" not in headers`. -/
def xfoFinding : Finding :=
  ⟨"Missing X-Frame-Options header", "Low",
   "No X-Frame-Options header present in response",
   "Add X-Frame-Options or frame-ancestors to prevent clickjacking"⟩

/-- The finding appended when `"server" in headers`; the evidence
f-string interpolates `headers.get("server")`. -/
def serverFinding (v : String) : Finding :=
  ⟨"Server version disclosure", "Low",
   "Server header present: " ++ v,
   "Disable or obfuscate server version headers"⟩

/-- `run_rule_based_checks` from `cli.py`: three independent checks,
appending findings in fixed order. -/
def run_rule_based_checks (headers : List (String × String)) : List Finding :=
  (if !hasKey headers "content-security-policy" then [cspFinding] else [])
    ++ (if !hasKey headers "x-frame-options" then [xfoFinding] else [])
    ++ (if hasKey headers "server" then
          [serverFinding (pyStr (getHeader headers "server"))]
        else [])

/-- Python `sum(1 for f in findings if f.get("severity") == sev)`, the
counting expression used by `summary.py` and by both report builders. -/
def pyCount (sev : String) (fs : List Finding) : Nat :=
  (fs.map (fun f => if f.severity == sev then 1 else 0)).sum

/-- The `posture` string chosen in `rule_based_executive_summary`
(`high > 0`, `elif med > 0`, `else`). -/
def posture (fs : List Finding) : String :=
  if 0 < pyCount "High" fs then "elevated risk"
  else if 0 < pyCount "Medium" fs then "moderate risk"
  else "low-to-moderate risk"

/-- The `priority` recommendation chosen alongside `posture`. -/
def remediationPriority (fs : List Finding) : String :=
  if 0 < pyCount "High" fs then
    "address High severity issues immediately, followed by Medium and Low findings"
  else if 0 < pyCount "Medium" fs then
    "remediate Medium severity issues first, then address Low severity hardening gaps"
  else "resolve Low severity configuration and hardening issues"

/-- Text returned by `rule_based_executive_summary` when `not findings`. -/
def noIssuesText (url title : String) : String :=
  "A lightweight security review of "
    ++ (url
    ++ (" ("
    ++ (title
    ++ (") "
    ++ ("did not identify obvious baseline security misconfigurations"
    ++ " during limited automated checks. This does not guarantee the application is secure, and deeper authenticated testing may still be required.")))))

/-- The counts clause of the nonempty-findings summary:
`f"{len(findings)} issue(s): {high} High, {med} Medium, and {low} Low"`. -/
def countSeg (fs : List Finding) : String :=
  toString fs.length
    ++ (" issue(s): "
    ++ (toString (pyCount "High" fs)
    ++ (" High, "
    ++ (toString (pyCount "Medium" fs)
    ++ (" Medium"
    ++ (", and "
    ++ (toString (pyCount "Low" fs)
    ++ " Low")))))))

/-- Text returned by `rule_based_executive_summary` when findings exist. -/
def issuesText (url title : String) (fs : List Finding) : String :=
  "A lightweight security review of "
    ++ (url
    ++ (" ("
    ++ (title
    ++ (") identified "
    ++ (countSeg fs
    ++ (". Overall, the application presents a "
    ++ (posture fs
    ++ (" security posture driven primarily by configuration and security header gaps. "
    ++ ("It is recommended to "
    ++ (remediationPriority fs
    ++ " and re-test to validate remediation."))))))))))

/-- `rule_based_executive_summary` from `llm/summary.py`. -/
def rule_based_executive_summary (url title : String) (findings : List Finding) : String :=
  if findings.isEmpty then noIssuesText url title
  else issuesText url title findings

/-- `generate_executive_summary` from `llm/summary.py`: compute the
fallback, return it at once when the capability is disabled; otherwise
attempt the external call, returning its stripped text when that is
non-empty and the fallback when the call raises or the stripped text is
empty.  The blanket `except` of the source is the `err` branch. -/
def generate_executive_summary (env : Env) (oc : LLMOutcome)
    (url title : String) (findings : List Finding) : String :=
  let fallback := rule_based_executive_summary url title findings
  if llm_enabled env then
    match oc with
    | .ok content =>
      let text := pyStrip (content.getD "")
      if text == "" then fallback else text
    | .err => fallback
  else fallback

/-- `_llm_mode_string` from `webapp.py`: reports the configured
capability, not the runtime outcome. -/
def llm_mode_string (env : Env) : String :=
  if llm_enabled env then "AI-assisted (LLM enabled)"
  else "Rule-based (LLM disabled)"

/-- The per-severity breakdown record built by `cli.py` `main`
(`severity_counts`). -/
structure SevBreakdown where
  high : Nat
  medium : Nat
  low : Nat
deriving DecidableEq, Repr

/-- The `summary` section of the CLI report. -/
structure ScanSummary where
  total_findings : Nat
  severity_breakdown : SevBreakdown
deriving DecidableEq, Repr

/-- Values stored in a report dict. -/
inductive JValue where
  | str (s : String)
  | dict (d : List (String × String))
  | fnd (fs : List Finding)
  | sm (s : ScanSummary)
deriving DecidableEq, Repr

/-- `severity_counts` from `cli.py` `main`. -/
def severity_counts (fs : List Finding) : SevBreakdown :=
  ⟨pyCount "High" fs, pyCount "Medium" fs, pyCount "Low" fs⟩

/-- `{k: headers[k] for k in sorted(headers.keys())[:25]}` from `cli.py`. -/
def cliHeadersSample (headers : List (String × String)) : List (String × String) :=
  ((sortStrs (headers.map Prod.fst)).take 25).map
    (fun k => (k, (getHeader headers k).getD ""))

/-- The `meta` dict of the CLI report (`cli.py` `main`). -/
def cliMeta (ts : String) : List (String × String) :=
  [("tool", "WebSentry AI"), ("version", "0.1.0"), ("scanned_at", ts)]

/-- The report dict assembled by `cli.py` `main` (insertion order of
the Python dict literal preserved). -/
def cliReport (url title : String) (headers : List (String × String))
    (findings : List Finding) (ts : String) : List (String × JValue) :=
  [("url", .str url),
   ("title", .str title),
   ("headers_sample", .dict (cliHeadersSample headers)),
   ("findings", .fnd findings),
   ("meta", .dict (cliMeta ts)),
   ("summary", .sm ⟨findings.length, severity_counts findings⟩)]

/-- `dict(list(headers.items())[:20])` from `webapp.py` `_build_report`. -/
def webHeadersSample (headers : List (String × String)) : List (String × String) :=
  headers.take 20

/-- The `meta` dict of the web report (`webapp.py` `_build_report`). -/
def webMeta (env : Env) (ts : String) : List (String × String) :=
  [("tool", "WebSentry AI"),
   ("version", env.websentryVersion.getD "0.1.0"),
   ("scanned_at", ts),
   ("mode", llm_mode_string env),
   ("scope", "Unauthenticated, read-only checks (MVP)")]

/-- The report dict assembled by `webapp.py` `_build_report`. -/
def webReport (env : Env) (oc : LLMOutcome) (url title : String)
    (headers : List (String × String)) (findings : List Finding)
    (ts : String) : List (String × JValue) :=
  [("url", .str url),
   ("title", .str title),
   ("executive_summary", .str (generate_executive_summary env oc url title findings)),
   ("headers_sample", .dict (webHeadersSample headers)),
   ("findings", .fnd findings),
   ("meta", .dict (webMeta env ts))]

/-- Modelled from the spec wording for the severity-breakdown claim:
the exact count of the findings carrying a given severity, to be
compared with the code's `pyCount` sum. -/
def specExactCount (sev : String) (fs : List Finding) : Nat :=
  (fs.filter (fun f => f.severity == sev)).length

/-- The empty pattern occurs in every char list. -/
theorem hasSeg_nil (s : List Char) : hasSeg [] s = true := by
  induction s with
  | nil => rfl
  | cons c cs ih => simp [hasSeg, segStart]

/-- A pattern is an initial segment of itself followed by anything. -/
theorem segStart_self (p t : List Char) : segStart p (p ++ t) = true := by
  induction p with
  | nil => rfl
  | cons c cs ih => simp [segStart, ih]

/-- A pattern occurs in itself followed by anything. -/
theorem hasSeg_self (p t : List Char) : hasSeg p (p ++ t) = true := by
  cases p with
  | nil => simpa using hasSeg_nil t
  | cons c cs =>
    have hs := segStart_self (c :: cs) t
    simp only [List.cons_append] at hs
    simp [hasSeg, hs]

/-- Occurrence is preserved by prepending characters. -/
theorem hasSeg_append (l p s : List Char) (h : hasSeg p s = true) :
    hasSeg p (l ++ s) = true := by
  induction l with
  | nil => simpa using h
  | cons c cs ih => simp [hasSeg, ih]

/-- A string contains itself as a substring of any right extension. -/
theorem strContains_here (p t : String) : strContains (p ++ t) p = true := by
  have hd : (p ++ t).data = p.data ++ t.data := String.data_append p t
  simp only [strContains, hd]
  exact hasSeg_self p.data t.data

/-- Substring containment is preserved by prepending a string. -/
theorem strContains_prepend (x : String) {s p : String}
    (h : strContains s p = true) : strContains (x ++ s) p = true := by
  have hd : (x ++ s).data = x.data ++ s.data := String.data_append x s
  simp only [strContains, hd]
  exact hasSeg_append x.data p.data s.data h

/-- A string with positive length is not the empty string. -/
theorem ne_empty_of_pos {s : String} (h : 0 < s.length) : s ≠ "" := by
  intro he
  rw [he] at h
  simp [String.length] at h

/-- A nonempty string has positive length. -/
theorem pos_length_of_ne {s : String} (h : s ≠ "") : 0 < s.length := by
  cases s with
  | mk data =>
    cases data with
    | nil => exact absurd rfl h
    | cons c cs => simp [String.length]

/-- Both branches of the rule-based summary start with a fixed nonempty
literal, so the fallback text always has positive length. -/
theorem rb_summary_pos (u t : String) (fs : List Finding) :
    0 < (rule_based_executive_summary u t fs).length := by
  have hlit : 0 < ("A lightweight security review of " : String).length := by decide
  unfold rule_based_executive_summary
  split
  · unfold noIssuesText
    rw [String.length_append]
    omega
  · unfold issuesText
    rw [String.length_append]
    omega

/-- C1: for every configuration of the capability flag and credential,
every outcome of the external summarization call (success with
arbitrary optional content, or an exception), and every url, title and
findings list, `generate_executive_summary` returns a non-empty string;
the function is total in this embedding, which is the never-raises
half of the contract. -/
theorem summarizer_never_empty (env : Env) (oc : LLMOutcome)
    (u t : String) (fs : List Finding) :
    0 < (generate_executive_summary env oc u t fs).length
    ∧ generate_executive_summary env oc u t fs ≠ "" := by
  have key : 0 < (generate_executive_summary env oc u t fs).length := by
    unfold generate_executive_summary
    cases hen : llm_enabled env with
    | false => simpa [hen] using rb_summary_pos u t fs
    | true =>
      cases oc with
      | err => simpa [hen] using rb_summary_pos u t fs
      | ok content =>
        simp only [hen, if_true]
        by_cases hc : (pyStrip (content.getD "") == "") = true
        · simpa [hc] using rb_summary_pos u t fs
        · have hc2 : (pyStrip (content.getD "") == "") = false := by
            revert hc
            cases pyStrip (content.getD "") == "" <;> simp
          have hne : pyStrip (content.getD "") ≠ "" := by
            simpa using hc2
          simpa [hc2] using pos_length_of_ne hne
  exact ⟨key, ne_empty_of_pos key⟩

/-- C1 witness: the guarantee evaluated at one concrete configuration. -/
theorem summarizer_never_empty_witness :
    0 < (generate_executive_summary ⟨none, none, none⟩ .err "u" "t" []).length
    ∧ generate_executive_summary ⟨none, none, none⟩ .err "u" "t" [] ≠ "" :=
  summarizer_never_empty ⟨none, none, none⟩ .err "u" "t" []

/-- C2: with the capability disabled the summarizer returns the
rule-based fallback for every external outcome (so no external call can
influence the result); with it enabled, an exception yields the
fallback, a success whose stripped text is nonempty yields that
stripped text, and a success whose stripped text is empty yields the
fallback. -/
theorem summarizer_dispatch (env : Env) (oc : LLMOutcome)
    (u t : String) (fs : List Finding) :
    (llm_enabled env = false →
      generate_executive_summary env oc u t fs = rule_based_executive_summary u t fs)
    ∧ (llm_enabled env = true →
      generate_executive_summary env .err u t fs = rule_based_executive_summary u t fs)
    ∧ (llm_enabled env = true → ∀ content : Option String,
      (pyStrip (content.getD "") ≠ "" →
        generate_executive_summary env (.ok content) u t fs = pyStrip (content.getD ""))
      ∧ (pyStrip (content.getD "") = "" →
        generate_executive_summary env (.ok content) u t fs
          = rule_based_executive_summary u t fs)) := by
  refine ⟨fun hd => ?_, fun he => ?_, fun he content => ⟨fun hne => ?_, fun hemp => ?_⟩⟩
  · simp [generate_executive_summary, hd]
  · simp [generate_executive_summary, he]
  · have hc2 : (pyStrip (content.getD "") == "") = false := by
      cases hq : pyStrip (content.getD "") == "" with
      | false => rfl
      | true => exact absurd (by simpa using hq) hne
    simp [generate_executive_summary, he, hc2]
  · simp [generate_executive_summary, he, hemp]

/-- C2 witness: the dispatch evaluated at concrete configurations. -/
theorem summarizer_dispatch_witness :
    generate_executive_summary ⟨none, none, none⟩ .err "u" "t" []
      = rule_based_executive_summary "u" "t" []
    ∧ generate_executive_summary ⟨some "true", some "key", none⟩ (.ok (some " ok ")) "u" "t" []
      = pyStrip ((some " ok " : Option String).getD "") :=
  ⟨(summarizer_dispatch ⟨none, none, none⟩ .err "u" "t" []).1 (by decide),
   ((summarizer_dispatch ⟨some "true", some "key", none⟩ .err "u" "t" []).2.2
      (by decide) (some " ok ")).1 (by decide)⟩

/-- C3: the source checks `"content-security-policy" not in headers`
with a case-sensitive dict lookup, so a header map carrying the header
under the mixed-case name `Content-Security-Policy` (as the
`requests`-based fetcher of `webapp.py` can deliver it) still receives
the Medium "Missing Content-Security-Policy header" finding, although
the map contains the key up to letter case. -/
theorem csp_rule_case_sensitive_bug :
    hasKey [("Content-Security-Policy", "default-src x")] "content-security-policy" = false
    ∧ hasKey ([("Content-Security-Policy", "default-src x")].map
        (fun p => (pyLower p.1, p.2))) "content-security-policy" = true
    ∧ ((run_rule_based_checks [("Content-Security-Policy", "default-src x")]).filter
        (fun f => f.title == "Missing Content-Security-Policy header")).length = 1 := by
  decide

/-- C4: the source checks `"server" in headers` case-sensitively, so a
header map carrying the header under the name `Server` produces no
"Server version disclosure" finding at all, hence no finding whose
evidence includes the header value, although the map contains the key
up to letter case. -/
theorem server_rule_case_sensitive_bug :
    hasKey [("Server", "nginx/1.18")] "server" = false
    ∧ hasKey ([("Server", "nginx/1.18")].map (fun p => (pyLower p.1, p.2))) "server" = true
    ∧ (run_rule_based_checks [("Server", "nginx/1.18")]).all
        (fun f => !(strContains f.evidence "nginx/1.18")) = true
    ∧ (run_rule_based_checks [("Server", "nginx/1.18")]).map Finding.title
        = ["Missing Content-Security-Policy header", "Missing X-Frame-Options header"] := by
  decide

/-- C7: the rule-based fallback classifies posture from the highest
severity present (High beats Medium beats Low, empty list gets the
no-issues wording), its text states the total and the per-severity
counts, and its text states the chosen posture; in particular one
Medium plus one Low finding yields a text containing
"2 issue(s): 0 High, 1 Medium" and "moderate risk". -/
theorem fallback_summary_spec (u t : String) (fs : List Finding) :
    (0 < pyCount "High" fs → posture fs = "elevated risk")
    ∧ (pyCount "High" fs = 0 → 0 < pyCount "Medium" fs → posture fs = "moderate risk")
    ∧ (pyCount "High" fs = 0 → pyCount "Medium" fs = 0 →
        posture fs = "low-to-moderate risk")
    ∧ (fs = [] → strContains (rule_based_executive_summary u t fs)
        "did not identify obvious baseline security misconfigurations" = true)
    ∧ (fs ≠ [] → strContains (rule_based_executive_summary u t fs) (countSeg fs) = true)
    ∧ (fs ≠ [] → strContains (rule_based_executive_summary u t fs) (posture fs) = true)
    ∧ (∀ f g : Finding, f.severity = "Medium" → g.severity = "Low" →
        strContains (rule_based_executive_summary u t [f, g])
          "2 issue(s): 0 High, 1 Medium" = true
        ∧ strContains (rule_based_executive_summary u t [f, g]) "moderate risk" = true) := by
  refine ⟨fun hh => ?_, fun hh hm => ?_, fun hh hm => ?_, fun he => ?_,
    fun hne => ?_, fun hne => ?_, fun f g hf hg => ?_⟩
  · unfold posture
    rw [if_pos hh]
  · unfold posture
    rw [if_neg (by omega), if_pos hm]
  · unfold posture
    rw [if_neg (by omega), if_neg (by omega)]
  · subst he
    have hrw : rule_based_executive_summary u t [] = noIssuesText u t := rfl
    rw [hrw]
    unfold noIssuesText
    exact strContains_prepend _ (strContains_prepend u (strContains_prepend _
      (strContains_prepend t (strContains_prepend _ (strContains_here _ _)))))
  · cases fs with
    | nil => exact absurd rfl hne
    | cons f r =>
      have hrw : rule_based_executive_summary u t (f :: r) = issuesText u t (f :: r) := rfl
      rw [hrw]
      unfold issuesText
      exact strContains_prepend _ (strContains_prepend u (strContains_prepend _
        (strContains_prepend t (strContains_prepend _ (strContains_here _ _)))))
  · cases fs with
    | nil => exact absurd rfl hne
    | cons f r =>
      have hrw : rule_based_executive_summary u t (f :: r) = issuesText u t (f :: r) := rfl
      rw [hrw]
      unfold issuesText
      exact strContains_prepend _ (strContains_prepend u (strContains_prepend _
        (strContains_prepend t (strContains_prepend _ (strContains_prepend _
          (strContains_prepend _ (strContains_here _ _)))))))
  · have hH : pyCount "High" [f, g] = 0 := by
      simp only [pyCount, List.map_cons, List.map_nil, List.sum_cons, List.sum_nil, hf, hg]
      decide
    have hM : pyCount "Medium" [f, g] = 1 := by
      simp only [pyCount, List.map_cons, List.map_nil, List.sum_cons, List.sum_nil, hf, hg]
      decide
    have hL : pyCount "Low" [f, g] = 1 := by
      simp only [pyCount, List.map_cons, List.map_nil, List.sum_cons, List.sum_nil, hf, hg]
      decide
    have hcount : countSeg [f, g] = "2 issue(s): 0 High, 1 Medium, and 1 Low" := by
      unfold countSeg
      rw [hH, hM, hL, show ([f, g] : List Finding).length = 2 from rfl]
      decide
    have hpos : posture [f, g] = "moderate risk" := by
      unfold posture
      rw [hH, hM]
      decide
    have hpri : remediationPriority [f, g]
        = "remediate Medium severity issues first, then address Low severity hardening gaps" := by
      unfold remediationPriority
      rw [hH, hM]
      decide
    have htail1 : strContains (countSeg [f, g]
        ++ (". Overall, the application presents a "
        ++ (posture [f, g]
        ++ (" security posture driven primarily by configuration and security header gaps. "
        ++ ("It is recommended to "
        ++ (remediationPriority [f, g]
        ++ " and re-test to validate remediation."))))))
        "2 issue(s): 0 High, 1 Medium" = true := by
      rw [hcount, hpos, hpri]
      decide
    have htail2 : strContains (countSeg [f, g]
        ++ (". Overall, the application presents a "
        ++ (posture [f, g]
        ++ (" security posture driven primarily by configuration and security header gaps. "
        ++ ("It is recommended to "
        ++ (remediationPriority [f, g]
        ++ " and re-test to validate remediation."))))))
        "moderate risk" = true := by
      rw [hcount, hpos, hpri]
      decide
    have hrw : rule_based_executive_summary u t [f, g] = issuesText u t [f, g] := rfl
    constructor
    · rw [hrw]
      unfold issuesText
      exact strContains_prepend _ (strContains_prepend u (strContains_prepend _
        (strContains_prepend t (strContains_prepend _ htail1))))
    · rw [hrw]
      unfold issuesText
      exact strContains_prepend _ (strContains_prepend u (strContains_prepend _
        (strContains_prepend t (strContains_prepend _ htail2))))

/-- C7 witness: the Medium-plus-Low instance at concrete findings. -/
theorem fallback_summary_spec_witness :
    strContains (rule_based_executive_summary "u" "t"
        [⟨"m", "Medium", "e", "g"⟩, ⟨"l", "Low", "e", "g"⟩])
      "2 issue(s): 0 High, 1 Medium" = true
    ∧ strContains (rule_based_executive_summary "u" "t"
        [⟨"m", "Medium", "e", "g"⟩, ⟨"l", "Low", "e", "g"⟩]) "moderate risk" = true :=
  (fallback_summary_spec "u" "t"
      [⟨"m", "Medium", "e", "g"⟩, ⟨"l", "Low", "e", "g"⟩]).2.2.2.2.2.2
    ⟨"m", "Medium", "e", "g"⟩ ⟨"l", "Low", "e", "g"⟩ rfl rfl

/-- Lexicographic order on char lists is total. -/
theorem lexLe_false {as bs : List Char} (h : lexLe as bs = false) :
    lexLe bs as = true := by
  induction as generalizing bs with
  | nil => simp [lexLe] at h
  | cons a as ih =>
    cases bs with
    | nil => rfl
    | cons b bs =>
      unfold lexLe at h ⊢
      by_cases h1 : a < b
      · simp [h1] at h
      · by_cases h2 : b < a
        · simp [h1, h2]
        · simp [h1, h2] at h ⊢
          exact ih h

/-- `strLe` is total. -/
theorem strLe_total {x y : String} (h : strLe x y = false) : strLe y x = true :=
  lexLe_false h

/-- Inserting an element above the head keeps head compatibility. -/
theorem headOk_insert {y x : String} {l : List String}
    (h : headOk y l = true) (hyx : strLe y x = true) :
    headOk y (insertStr x l) = true := by
  cases l with
  | nil => simpa [insertStr, headOk] using hyx
  | cons z zs =>
    unfold insertStr
    by_cases hxz : strLe x z = true
    · simp [hxz, headOk, hyx]
    · simp only [hxz, if_false, Bool.if_false_right]
      simpa [headOk] using h

/-- The chain check on a cons splits into head and tail checks. -/
theorem strChainLe_cons (y : String) (l : List String) :
    strChainLe (y :: l) = (headOk y l && strChainLe l) := by
  cases l <;> simp [strChainLe, headOk]

/-- Ordered insertion preserves the ascending chain. -/
theorem strChainLe_insert (x : String) {l : List String}
    (h : strChainLe l = true) : strChainLe (insertStr x l) = true := by
  induction l with
  | nil => simp [insertStr, strChainLe]
  | cons y ys ih =>
    rw [strChainLe_cons, Bool.and_eq_true] at h
    obtain ⟨h1, h2⟩ := h
    unfold insertStr
    by_cases hxy : strLe x y = true
    · rw [if_pos hxy, strChainLe_cons, strChainLe_cons]
      simp only [Bool.and_eq_true]
      exact ⟨by simpa [headOk] using hxy, h1, h2⟩
    · have hxy2 : strLe x y = false := by
        revert hxy
        cases strLe x y <;> simp
      have hyx : strLe y x = true := strLe_total hxy2
      rw [if_neg hxy, strChainLe_cons, Bool.and_eq_true]
      exact ⟨headOk_insert h1 hyx, ih h2⟩

/-- Insertion sort produces an ascending chain. -/
theorem strChainLe_sortStrs (l : List String) : strChainLe (sortStrs l) = true := by
  induction l with
  | nil => rfl
  | cons x xs ih => exact strChainLe_insert x ih

/-- Taking a front segment preserves the ascending chain. -/
theorem strChainLe_take (n : Nat) {l : List String} (h : strChainLe l = true) :
    strChainLe (l.take n) = true := by
  induction l generalizing n with
  | nil => simp [strChainLe]
  | cons a rest ih =>
    cases n with
    | zero => simp [strChainLe]
    | succ m =>
      rw [List.take_succ_cons]
      rw [strChainLe_cons, Bool.and_eq_true] at h
      obtain ⟨h1, h2⟩ := h
      rw [strChainLe_cons, Bool.and_eq_true]
      refine ⟨?_, ih m h2⟩
      cases rest with
      | nil => simp [headOk]
      | cons b bs =>
        cases m with
        | zero => simp [headOk]
        | succ k => simpa [List.take_succ_cons, headOk] using h1

/-- C5 (amended): both pipelines bound the header sample at 25 entries
or fewer; the CLI sample is additionally in ascending key order, while
the web sample is the first at-most-20 header entries kept in their
original order (a sub-list of the input, entrywise equal to its
20-prefix). -/
theorem headers_sample_bounded_sorted (h : List (String × String)) :
    (cliHeadersSample h).length ≤ 25
    ∧ strChainLe ((cliHeadersSample h).map Prod.fst) = true
    ∧ (webHeadersSample h).length ≤ 25
    ∧ List.Sublist (webHeadersSample h) h
    ∧ (∀ i : Nat, (webHeadersSample h)[i]? = if i < 20 then h[i]? else none) := by
  refine ⟨?_, ?_, ?_, List.take_sublist 20 h, fun i => ?_⟩
  · simp only [cliHeadersSample, List.length_map, List.length_take]
    omega
  · have hmap : (cliHeadersSample h).map Prod.fst
        = (sortStrs (h.map Prod.fst)).take 25 := by
      simp only [cliHeadersSample, List.map_map]
      have hcomp : (Prod.fst ∘ fun k => (k, (getHeader h k).getD "")) = id := rfl
      rw [hcomp, List.map_id]
    rw [hmap]
    exact strChainLe_take 25 (strChainLe_sortStrs _)
  · simp only [webHeadersSample, List.length_take]
    omega
  · simp [webHeadersSample, List.getElem?_take]

/-- C5 counterexample: the web report's header sample is not sorted by
key; two headers arriving as b then a are kept in that order. -/
theorem web_sample_unsorted_cex :
    webHeadersSample [("b", "1"), ("a", "2")] = [("b", "1"), ("a", "2")]
    ∧ strChainLe ((webHeadersSample [("b", "1"), ("a", "2")]).map Prod.fst) = false := by
  decide

/-- The code's generator-sum count equals the exact filter count. -/
theorem pyCount_eq_specExactCount (s : String) (fs : List Finding) :
    pyCount s fs = specExactCount s fs := by
  induction fs with
  | nil => rfl
  | cons f r ih =>
    have hL : pyCount s (f :: r) = (if f.severity == s then 1 else 0) + pyCount s r := rfl
    have hR : specExactCount s (f :: r)
        = (if f.severity == s then 1 else 0) + specExactCount s r := by
      unfold specExactCount
      rw [List.filter_cons]
      cases hc : (f.severity == s) with
      | false => simp
      | true => simp [Nat.add_comm]
    rw [hL, hR, ih]

/-- C6 (amended): the CLI report's summary section carries a severity
breakdown equal to the exact per-severity counts of the findings
sequence and a total equal to its length, for every findings sequence
including the empty one; the web report contains no summary section at
all. -/
theorem summary_counts_exact (env : Env) (oc : LLMOutcome) (u t ts : String)
    (h : List (String × String)) (fs : List Finding) :
    (cliReport u t h fs ts).lookup "summary"
      = some (JValue.sm ⟨fs.length,
          ⟨specExactCount "High" fs, specExactCount "Medium" fs,
           specExactCount "Low" fs⟩⟩)
    ∧ (webReport env oc u t h fs ts).lookup "summary" = none := by
  constructor
  · have h1 : (cliReport u t h fs ts).lookup "summary"
        = some (JValue.sm ⟨fs.length, severity_counts fs⟩) := rfl
    rw [h1]
    simp [severity_counts, pyCount_eq_specExactCount]
  · rfl

/-- C6 counterexample: a concrete report assembled by the web pipeline
has findings but no summary section. -/
theorem web_report_no_summary_cex :
    (webReport ⟨none, none, none⟩ LLMOutcome.err "u" "t" [] [] "ts").lookup "summary" = none
    ∧ (webReport ⟨none, none, none⟩ LLMOutcome.err "u" "t" [] [] "ts").lookup "findings"
        = some (JValue.fnd []) := by
  decide

/-- C8 (amended): the web report's meta carries a mode string that is a
function of the configured capability alone (enabled gives the
AI-assisted wording, disabled the rule-based wording, with no
dependence on the external outcome), and with the capability enabled
but the external call failing, the report's executive summary is the
deterministic fallback while the mode still reports the capability as
enabled; the CLI report's meta carries no mode string. -/
theorem report_mode_configured (env : Env) (oc : LLMOutcome) (u t ts : String)
    (h : List (String × String)) (fs : List Finding) :
    (webReport env oc u t h fs ts).lookup "meta" = some (JValue.dict (webMeta env ts))
    ∧ (webMeta env ts).lookup "mode" = some (llm_mode_string env)
    ∧ (llm_enabled env = true → llm_mode_string env = "AI-assisted (LLM enabled)")
    ∧ (llm_enabled env = false → llm_mode_string env = "Rule-based (LLM disabled)")
    ∧ (llm_enabled env = true →
        (webReport env .err u t h fs ts).lookup "executive_summary"
          = some (JValue.str (rule_based_executive_summary u t fs))
        ∧ (webMeta env ts).lookup "mode" = some "AI-assisted (LLM enabled)")
    ∧ (cliMeta ts).lookup "mode" = none := by
  refine ⟨rfl, rfl, fun he => ?_, fun hd => ?_, fun he => ⟨?_, ?_⟩, rfl⟩
  · simp [llm_mode_string, he]
  · simp [llm_mode_string, hd]
  · have h1 : (webReport env .err u t h fs ts).lookup "executive_summary"
        = some (JValue.str (generate_executive_summary env .err u t fs)) := rfl
    rw [h1]
    simp [generate_executive_summary, he]
  · have h2 : (webMeta env ts).lookup "mode" = some (llm_mode_string env) := rfl
    rw [h2]
    simp [llm_mode_string, he]

/-- C8 witness: the enabled-but-failing scenario at a concrete
configuration. -/
theorem report_mode_configured_witness :
    ((webReport ⟨some "true", some "key", none⟩ .err "u" "t" [] [] "ts").lookup
        "executive_summary"
      = some (JValue.str (rule_based_executive_summary "u" "t" []))
    ∧ (webMeta ⟨some "true", some "key", none⟩ "ts").lookup "mode"
      = some "AI-assisted (LLM enabled)")
    ∧ llm_mode_string ⟨some "true", some "key", none⟩ = "AI-assisted (LLM enabled)" :=
  ⟨(report_mode_configured ⟨some "true", some "key", none⟩ .err "u" "t" "ts" [] []).2.2.2.2.1
      (by decide),
   (report_mode_configured ⟨some "true", some "key", none⟩ .err "u" "t" "ts" [] []).2.2.1
      (by decide)⟩

/-- C8 counterexample: the CLI pipeline's concrete report has a meta
section with no mode entry. -/
theorem cli_meta_no_mode_cex :
    (cliReport "u" "t" [] [] "ts").lookup "meta" = some (JValue.dict (cliMeta "ts"))
    ∧ (cliMeta "ts").lookup "mode" = none := by
  decide

/-- C9: the rule engine is a pure function evaluated deterministically,
its findings always appear in the fixed rule order (the title sequence
is a sub-list of the CSP, X-Frame-Options, Server title order), and a
header map triggering none of the three rules yields the empty
sequence. -/
theorem rule_engine_deterministic_ordered (h : List (String × String)) :
    run_rule_based_checks h = run_rule_based_checks h
    ∧ List.Sublist ((run_rule_based_checks h).map Finding.title)
        ["Missing Content-Security-Policy header", "Missing X-Frame-Options header",
         "Server version disclosure"]
    ∧ (hasKey h "content-security-policy" = true → hasKey h "x-frame-options" = true →
        hasKey h "server" = false → run_rule_based_checks h = []) := by
  refine ⟨rfl, ?_, fun h1 h2 h3 => by simp [run_rule_based_checks, h1, h2, h3]⟩
  unfold run_rule_based_checks
  cases hc : hasKey h "content-security-policy" <;>
    cases hx : hasKey h "x-frame-options" <;>
      cases hs : hasKey h "server" <;>
        simp [cspFinding, xfoFinding, serverFinding]

/-- C9 witness: a header map with both security headers and no server
header produces no findings. -/
theorem rule_engine_deterministic_ordered_witness :
    run_rule_based_checks [("content-security-policy", "default-src x"),
        ("x-frame-options", "DENY")] = [] :=
  (rule_engine_deterministic_ordered
      [("content-security-policy", "default-src x"), ("x-frame-options", "DENY")]).2.2
    (by decide) (by decide) (by decide)

/-- `pyCount` distributes over list append. -/
theorem pyCount_append (s : String) (a b : List Finding) :
    pyCount s (a ++ b) = pyCount s a + pyCount s b := by
  simp [pyCount]

/-- C10: for every header map the rule engine emits at most three
findings and none of severity High, so every pipeline report's High
count is zero and the elevated-risk posture branch of the fallback
summary is unreachable on rule-engine output. -/
theorem rule_engine_bounded_no_high (h : List (String × String)) :
    (run_rule_based_checks h).length ≤ 3
    ∧ (run_rule_based_checks h).all (fun f => !(f.severity == "High")) = true
    ∧ pyCount "High" (run_rule_based_checks h) = 0
    ∧ (severity_counts (run_rule_based_checks h)).high = 0
    ∧ posture (run_rule_based_checks h) ≠ "elevated risk" := by
  have hH : pyCount "High" (run_rule_based_checks h) = 0 := by
    unfold run_rule_based_checks
    rw [pyCount_append, pyCount_append]
    have e1 : ∀ b : Bool, pyCount "High" (if b then [cspFinding] else []) = 0 := by
      intro b
      cases b <;> decide
    have e2 : ∀ b : Bool, pyCount "High" (if b then [xfoFinding] else []) = 0 := by
      intro b
      cases b <;> decide
    have e3 : ∀ b : Bool, ∀ v : String,
        pyCount "High" (if b then [serverFinding v] else []) = 0 := by
      intro b v
      cases b <;> simp [pyCount, serverFinding]
    rw [e1, e2, e3]
  refine ⟨?_, ?_, hH, hH, ?_⟩
  · unfold run_rule_based_checks
    rw [List.length_append, List.length_append]
    have e1 : ∀ b : Bool, (if b then [cspFinding] else []).length ≤ 1 := by
      intro b
      cases b <;> decide
    have e2 : ∀ b : Bool, (if b then [xfoFinding] else []).length ≤ 1 := by
      intro b
      cases b <;> decide
    have e3 : ∀ b : Bool, ∀ v : String,
        (if b then [serverFinding v] else []).length ≤ 1 := by
      intro b v
      cases b <;> simp
    have := e1 (!hasKey h "content-security-policy")
    have := e2 (!hasKey h "x-frame-options")
    have := e3 (hasKey h "server") (pyStr (getHeader h "server"))
    omega
  · unfold run_rule_based_checks
    rw [List.all_append, List.all_append]
    have e1 : ∀ b : Bool,
        (if b then [cspFinding] else []).all (fun f => !(f.severity == "High")) = true := by
      intro b
      cases b <;> decide
    have e2 : ∀ b : Bool,
        (if b then [xfoFinding] else []).all (fun f => !(f.severity == "High")) = true := by
      intro b
      cases b <;> decide
    have e3 : ∀ b : Bool, ∀ v : String,
        (if b then [serverFinding v] else []).all (fun f => !(f.severity == "High"))
          = true := by
      intro b v
      cases b <;> simp [serverFinding]
    rw [e1, e2, e3]
    rfl
  · unfold posture
    rw [hH]
    split
    · omega
    · split <;> decide

/-- C10 witness: evaluated on the empty header map. -/
theorem rule_engine_bounded_no_high_witness :
    posture (run_rule_based_checks []) ≠ "elevated risk"
    ∧ (run_rule_based_checks []).length ≤ 3 :=
  ⟨(rule_engine_bounded_no_high []).2.2.2.2, (rule_engine_bounded_no_high []).1⟩

end WebSentry
